import Mathlib

/-!
Shallow embedding of the MFT index core of the MHZipy repository
(src/src-tauri/src/mft.rs), and theorems checking the natural-language
specification against it.

Modelling conventions:
* Machine integers (u16/u32/u64) are `Nat`; values read from buffers are
  bounded by construction of the little-endian readers.  `i64` values are
  `Int` obtained from the 64-bit pattern by two's complement (`toI64`).
* IOCTL output buffers are `List Nat` of bytes together with the
  `bytes_returned` count, exactly as the Rust code receives them.
* Strings coming from the volume are kept as their UTF-16 code-unit
  sequences (`List Nat`); `String::to_lowercase` is modelled by ASCII
  lowercasing of code units (the claims under check do not depend on the
  exact case-folding table).
* The `DashMap<u64, FileEntry>` entry store is an association list with
  (in every state the program produces) pairwise-distinct keys;
  `get`/`insert`/`remove` are `lookupStore`/`insertStore`/`removeStore`.
* The blocking IOCTLs are modelled by traces: each loop iteration consumes
  one pre-recorded device response, so a run of `build_index` or `monitor`
  is a fold over a response list.  Loops whose termination is in question
  are written with explicit fuel, `none`/a `running` outcome meaning the
  fuel ran out with the loop still going.
-/

namespace Mft

/-- Little-endian read of `n` bytes of `buf` starting at `off` (missing
bytes read as 0, mirroring that the Rust code reads from a fixed-size
zero-initialised buffer). -/
def readLE (buf : List Nat) : Nat → Nat → Nat
  | _, 0 => 0
  | off, n + 1 => buf.getD off 0 + 256 * readLE buf (off + 1) n

def readU16 (buf : List Nat) (off : Nat) : Nat := readLE buf off 2

def readU32 (buf : List Nat) (off : Nat) : Nat := readLE buf off 4

def readU64 (buf : List Nat) (off : Nat) : Nat := readLE buf off 8

/-- Reinterpret a 64-bit pattern as a signed `i64` (two's complement). -/
def toI64 (n : Nat) : Int := if n < 2 ^ 63 then (n : Int) else (n : Int) - 2 ^ 64

/-- `FileEntry` of mft.rs: parent FRN, UTF-16 name, directory flag. -/
structure FileEntry where
  parent_frn : Nat
  name : List Nat
  is_dir : Bool
deriving DecidableEq

/-- The `DashMap<u64, FileEntry>` entry store, as an association list. -/
abbrev EntryStore := List (Nat × FileEntry)

/-- `DashMap::get`. -/
def lookupStore (k : Nat) : EntryStore → Option FileEntry
  | [] => none
  | (k1, v) :: t => if k1 = k then some v else lookupStore k t

/-- `DashMap::insert` (replaces any existing value for the key). -/
def insertStore (k : Nat) (v : FileEntry) (s : EntryStore) : EntryStore :=
  (k, v) :: (s.filter fun p => p.1 != k)

/-- `DashMap::remove`. -/
def removeStore (k : Nat) (s : EntryStore) : EntryStore :=
  s.filter fun p => p.1 != k

/-- The search index `Vec<(u64, String)>`. -/
abbrev SearchIdx := List (Nat × List Nat)

/-- `FileChange` of mft.rs; the path is kept as its list of components
(drive letter first), matching `PathBuf` pushes. -/
structure FileChange where
  action : String
  path : List (List Nat)
  is_dir : Bool
deriving DecidableEq

/-! ### USN record field readers (USN_RECORD_V2 layout) -/

def USN_REASON_FILE_CREATE : Nat := 0x00000100
def USN_REASON_FILE_DELETE : Nat := 0x00000200
def USN_REASON_RENAME_OLD_NAME : Nat := 0x00001000
def USN_REASON_RENAME_NEW_NAME : Nat := 0x00002000
def FILE_ATTRIBUTE_DIRECTORY : Nat := 0x00000010

/-- Low 48 bits mask used for the NTFS root check. -/
def MASK48 : Nat := 0x0000FFFFFFFFFFFF

/-- `USN_RECORD_COMMON_HEADER.RecordLength` (u32 at offset 0). -/
def recLen (buf : List Nat) (off : Nat) : Nat := readU32 buf off

/-- `USN_RECORD_V2.FileReferenceNumber` (u64 at offset 8). -/
def recFRN (buf : List Nat) (off : Nat) : Nat := readU64 buf (off + 8)

/-- `USN_RECORD_V2.ParentFileReferenceNumber` (u64 at offset 16). -/
def recParent (buf : List Nat) (off : Nat) : Nat := readU64 buf (off + 16)

/-- `USN_RECORD_V2.Reason` (u32 at offset 40). -/
def recReason (buf : List Nat) (off : Nat) : Nat := readU32 buf (off + 40)

/-- `USN_RECORD_V2.FileAttributes` (u32 at offset 52). -/
def recAttrs (buf : List Nat) (off : Nat) : Nat := readU32 buf (off + 52)

/-- `USN_RECORD_V2.FileNameLength` (u16 at offset 56), in bytes. -/
def recNameLen (buf : List Nat) (off : Nat) : Nat := readU16 buf (off + 56)

/-- `USN_RECORD_V2.FileNameOffset` (u16 at offset 58). -/
def recNameOff (buf : List Nat) (off : Nat) : Nat := readU16 buf (off + 58)

/-- The file name: `FileNameLength / 2` UTF-16 code units starting at
`FileNameOffset` from the record start. -/
def recName (buf : List Nat) (off : Nat) : List Nat :=
  (List.range (recNameLen buf off / 2)).map
    (fun i => readU16 buf (off + recNameOff buf off + 2 * i))

/-! ### Path reconstruction (`MftIndex::reconstruct_path`) -/

/-- Body of the bounded `for _ in 0..50` walk of `reconstruct_path`:
look the current FRN up; on a hit push the name and stop on
`parent == current`, `parent == 0` or `parent & MASK48 == 5`; on a miss
stop if `current & MASK48 == 5`, otherwise fail with `none`.  Falling out
of the loop (fuel 0) keeps the parts collected so far, as in the source. -/
def reconstructAux (store : EntryStore) : Nat → Nat → List (List Nat) → Option (List (List Nat))
  | 0, _, parts => some parts
  | fuel + 1, current, parts =>
    match lookupStore current store with
    | some e =>
      if e.parent_frn = current ∨ e.parent_frn = 0 then some (parts ++ [e.name])
      else if Nat.land e.parent_frn MASK48 = 5 then some (parts ++ [e.name])
      else reconstructAux store fuel e.parent_frn (parts ++ [e.name])
    | none =>
      if Nat.land current MASK48 = 5 then some parts
      else none

/-- `MftIndex::reconstruct_path`: 50 levels of upward walk, then the
collected parts reversed behind the drive letter (with a separator
component when the drive letter does not already end in a backslash). -/
def reconstruct_path (drive : List Nat) (store : EntryStore) (frn : Nat) :
    Option (List (List Nat)) :=
  (reconstructAux store 50 frn []).map fun parts =>
    (if drive.getLast? = some 92 then [drive] else [drive, [92]]) ++ parts.reverse

/-- One step of the parent chain: defined (and not a stopping point) only
when the current FRN is resident and its parent triggers none of the three
stop conditions of `reconstruct_path`. -/
def chainStep (store : EntryStore) (c : Nat) : Option Nat :=
  match lookupStore c store with
  | some e =>
    if e.parent_frn = c ∨ e.parent_frn = 0 then none
    else if Nat.land e.parent_frn MASK48 = 5 then none
    else some e.parent_frn
  | none => none

/-- The FRN the walk is at after `k` non-stopping steps from `f`
(`none` once the walk has stopped or broken). -/
def chainAt (store : EntryStore) (f : Nat) : Nat → Option Nat
  | 0 => some f
  | k + 1 =>
    match chainAt store f k with
    | some c => chainStep store c
    | none => none

/-- The chain from `f` is broken at step `k`: the walk reaches an FRN
absent from the store whose own low 48 bits are not 5. -/
def brokenAtB (store : EntryStore) (f : Nat) (k : Nat) : Bool :=
  match chainAt store f k with
  | some c => (lookupStore c store).isNone && (Nat.land c MASK48 != 5)
  | none => false

/-! ### Search (`MftIndex::search`) -/

/-- ASCII model of per-character lowercasing. -/
def toLowerU (c : Nat) : Nat := if 65 ≤ c ∧ c ≤ 90 then c + 32 else c

/-- Model of `String::to_lowercase`. -/
def toLowerStr (s : List Nat) : List Nat := s.map toLowerU

/-- Whether `pre` is a leading run of `l`. -/
def isPrefOf : List Nat → List Nat → Bool
  | [], _ => true
  | _ :: _, [] => false
  | a :: as, b :: bs => a == b && isPrefOf as bs

/-- Model of `str::contains` (substring containment). -/
def containsSub (hay needle : List Nat) : Bool :=
  match hay with
  | [] => needle.isEmpty
  | _ :: t => isPrefOf needle hay || containsSub t needle

/-- `MftIndex::search`: lowercase the query, keep the index pairs whose
lowercased name contains it, reconstruct each hit's path, keep at most
500 results. -/
def search (drive : List Nat) (store : EntryStore) (idx : SearchIdx) (query : List Nat) :
    List (List (List Nat)) :=
  let q := toLowerStr query
  ((idx.filter fun p => containsSub (toLowerStr p.2) q).filterMap
      fun p => reconstruct_path drive store p.1).take 500

/-! ### Snapshot persistence (`save_to_disk` / `load_from_disk`)

The on-disk bytes are produced and consumed by the external `bincode`
crate, which is a faithful (injective, lossless) transport of the
`PersistentData` value; the embedding therefore passes the
`PersistentData` value itself between `save_to_disk` and
`load_from_disk`, and models exactly what the repository's code does on
each side of it. -/

/-- `PersistentData` of mft.rs. -/
structure PersistentData where
  entries : List (Nat × FileEntry)
  next_usn : Int
  journal_id : Nat
deriving DecidableEq

/-- `MftIndex::save_to_disk`: collect every (key, value) pair of the
entry store together with the anchor. -/
def save_to_disk (store : EntryStore) (next_usn : Int) (journal_id : Nat) : PersistentData :=
  { entries := store, next_usn := next_usn, journal_id := journal_id }

/-- `MftIndex::load_from_disk`: clear the store, insert every persisted
pair, rebuild the search index from the store, return the anchor. -/
def load_from_disk (pd : PersistentData) : EntryStore × SearchIdx × Int × Nat :=
  let store := pd.entries.foldl (fun acc kv => insertStore kv.1 kv.2 acc) []
  (store, store.map (fun p => (p.1, p.2.name)), pd.next_usn, pd.journal_id)

/-! ### Journal tailer (`MftIndex::monitor`) -/

/-- The mutable state a monitor walk threads through one buffer. -/
structure WalkState where
  entries : EntryStore
  search : SearchIdx
  changes : List FileChange
deriving DecidableEq

/-- Processing of one journal record in `monitor`'s walk: skip empty
names; on `FILE_DELETE | RENAME_OLD_NAME` emit a delete for the stored
entry when it is found and its parent path reconstructs, then remove the
FRN from store and search index; otherwise on
`FILE_CREATE | RENAME_NEW_NAME` upsert the entry, prune-and-push the
search index pair, and emit a create when the (post-insert) parent path
reconstructs. -/
def processMonitorRecord (drive buf : List Nat) (off : Nat) (ws : WalkState) : WalkState :=
  let frn := recFRN buf off
  if 0 < recNameLen buf off then
    let name := recName buf off
    if recReason buf off &&& (USN_REASON_FILE_DELETE ||| USN_REASON_RENAME_OLD_NAME) ≠ 0 then
      let changes2 :=
        match lookupStore frn ws.entries with
        | some entry =>
          match reconstruct_path drive ws.entries entry.parent_frn with
          | some parentPath =>
            ws.changes ++ [⟨"delete", parentPath ++ [entry.name], entry.is_dir⟩]
          | none => ws.changes
        | none => ws.changes
      { entries := removeStore frn ws.entries
        search := ws.search.filter fun p => p.1 != frn
        changes := changes2 }
    else if recReason buf off &&& (USN_REASON_FILE_CREATE ||| USN_REASON_RENAME_NEW_NAME) ≠ 0 then
      let parent := recParent buf off
      let isDir := (recAttrs buf off &&& FILE_ATTRIBUTE_DIRECTORY) != 0
      let entries2 := insertStore frn ⟨parent, name, isDir⟩ ws.entries
      let search2 := (ws.search.filter fun p => p.1 != frn) ++ [(frn, name)]
      let changes2 :=
        match reconstruct_path drive entries2 parent with
        | some parentPath => ws.changes ++ [⟨"create", parentPath ++ [name], isDir⟩]
        | none => ws.changes
      ⟨entries2, search2, changes2⟩
    else ws
  else ws

/-- `monitor`'s record walk over one buffer, from offset 8: stop when the
offset reaches `bytes_returned`, when `record_length == 0`, or when the
record would exceed `bytes_returned`; otherwise process the record and
advance by `record_length`.  The fuel only bounds the iteration count; a
fuel of `bytes_returned` always suffices because each step advances the
offset by at least 1. -/
def monitorWalkFuel (drive buf : List Nat) (br : Nat) : Nat → Nat → WalkState → WalkState
  | 0, _, ws => ws
  | fuel + 1, off, ws =>
    if off < br then
      let rl := recLen buf off
      if rl = 0 ∨ off + rl > br then ws
      else monitorWalkFuel drive buf br fuel (off + rl) (processMonitorRecord drive buf off ws)
    else ws

/-- The tailer's loop state: the anchor's `start_usn` plus the shared
store and search index. -/
structure MState where
  startUsn : Int
  entries : EntryStore
  search : SearchIdx
deriving DecidableEq

/-- One iteration of `monitor`'s loop, on one read-journal outcome
(`ok`, buffer, `bytes_returned`): on success with `bytes_returned > 8`
set `start_usn` from the first 8 bytes and walk the records; otherwise
sleep 500 ms (a no-op on the state) and retry. -/
def monitorStep (drive : List Nat) (st : MState) (ok : Bool) (buf : List Nat) (br : Nat) :
    MState × List FileChange :=
  if ok = true ∧ 8 < br then
    let ws := monitorWalkFuel drive buf br br 8 ⟨st.entries, st.search, []⟩
    (⟨toI64 (readU64 buf 0), ws.entries, ws.search⟩, ws.changes)
  else (st, [])

/-- Outcome of running `monitor` against a finite trace of read-journal
outcomes: either the function returned, or it is still inside its loop
with the given state. -/
inductive MOut where
  | returned
  | running (st : MState)
deriving DecidableEq

/-- `MftIndex::monitor`: if the volume handle opens, fold the loop over
the trace (the loop body never breaks or returns, so the run is still
`running` after any finite trace); if the open fails, the `if let Ok`
falls through and `monitor` returns at once. -/
def monitorRun (drive : List Nat) (openOk : Bool) (st0 : MState)
    (inputs : List (Bool × List Nat × Nat)) : MOut :=
  if openOk = true then
    .running (inputs.foldl (fun st i => (monitorStep drive st i.1 i.2.1 i.2.2).1) st0)
  else .returned

/-! ### MFT enumeration (`MftIndex::build_index`) -/

/-- Processing of one record in `build_index`'s walk: insert the entry
when the name length is non-zero. -/
def processEnumRecord (buf : List Nat) (off : Nat) (entries : EntryStore) : EntryStore :=
  if 0 < recNameLen buf off then
    insertStore (recFRN buf off)
      ⟨recParent buf off, recName buf off, (recAttrs buf off &&& FILE_ATTRIBUTE_DIRECTORY) != 0⟩
      entries
  else entries

/-- `build_index`'s record walk over one buffer, from offset 8.  Unlike
`monitor`'s walk it checks only `offset + record_length > bytes_returned`
— there is no `record_length == 0` check — so a zero-length record never
advances the offset; `none` means the fuel ran out with the loop still
going. -/
def buildWalkFuel (buf : List Nat) (br : Nat) : Nat → Nat → EntryStore → Option EntryStore
  | 0, _, _ => none
  | fuel + 1, off, entries =>
    if off < br then
      let rl := recLen buf off
      if off + rl > br then some entries
      else buildWalkFuel buf br fuel (off + rl) (processEnumRecord buf off entries)
    else some entries

/-- One enum-mft IOCTL outcome: `ERROR_HANDLE_EOF`, another error, or a
buffer with its `bytes_returned`. -/
inductive EnumResp where
  | eof
  | fail
  | ok (buf : List Nat) (br : Nat)
deriving DecidableEq

/-- Outcome of `build_index` against a finite response trace. -/
inductive BOut where
  | ok (count : Nat) (usn : Int) (jid : Nat)
  | err
  | diverged
  | running
deriving DecidableEq

/-- The store and search index of the `MftIndex` (the two fields
`build_index` mutates). -/
structure BState where
  entries : EntryStore
  search : SearchIdx
deriving DecidableEq

/-- Leaving `build_index`'s loop successfully: rebuild the search index
from the entry store and return `(count, next_usn, journal_id)`. -/
def finishBuild (usn : Int) (jid : Nat) (st : BState) : BOut × BState :=
  (.ok st.entries.length usn jid,
    ⟨st.entries, st.entries.map fun p => (p.1, p.2.name)⟩)

/-- `build_index`'s enumeration loop: per response, break on EOF, return
the error on failure, break when `bytes_returned` is 0 or below 8,
otherwise copy the buffer's leading 8 bytes into the cursor and walk the
records.  `running` means the response trace ran out with the loop still
going; `diverged` means the record walk itself failed to finish within
its fuel. -/
def buildLoop (usn : Int) (jid : Nat) : Nat → List EnumResp → BState → BOut × BState
  | _, [], st => (.running, st)
  | _startFrn, r :: rs, st =>
    match r with
    | .eof => finishBuild usn jid st
    | .fail => (.err, st)
    | .ok buf br =>
      if br = 0 then finishBuild usn jid st
      else if br < 8 then finishBuild usn jid st
      else
        let nf := readU64 buf 0
        match buildWalkFuel buf br br 8 st.entries with
        | none => (.diverged, st)
        | some entries2 => buildLoop usn jid nf rs ⟨entries2, st.search⟩

/-- `MftIndex::build_index`: open the handle (on failure return the error
with the state untouched), clear the entry store, query the journal (on
failure return the error), then run the enumeration loop with the cursor
starting at 0. -/
def buildIndexFull (st0 : BState) (openOk : Bool) (query : Option (Int × Nat))
    (rs : List EnumResp) : BOut × BState :=
  if openOk = true then
    let st1 : BState := ⟨[], st0.search⟩
    match query with
    | none => (.err, st1)
    | some (usn, jid) => buildLoop usn jid 0 rs st1
  else (.err, st0)

/-- The non-advancing enum-mft response used for the stall analysis: a
valid 8-byte buffer whose leading cursor FRN is 0, the same value the
request started from. -/
def stallResp : EnumResp := .ok (List.replicate 8 0) 8

/-- A concrete 62-byte V2 record: FRN 7, parent FRN 9, reason
`USN_REASON_FILE_DELETE` (0x200), name length 2 bytes, name offset 60,
name the single UTF-16 unit 97. -/
def bufDel : List Nat :=
  [0, 0, 0, 0, 0, 0, 0, 0,
   7, 0, 0, 0, 0, 0, 0, 0,
   9, 0, 0, 0, 0, 0, 0, 0,
   0, 0, 0, 0, 0, 0, 0, 0,
   0, 0, 0, 0, 0, 0, 0, 0,
   0, 2, 0, 0, 0, 0, 0, 0,
   0, 0, 0, 0, 0, 0, 0, 0,
   2, 0, 60, 0, 97, 0]

/-- The same record as `bufDel` but with reason
`USN_REASON_FILE_CREATE` (0x100). -/
def bufCre : List Nat :=
  [0, 0, 0, 0, 0, 0, 0, 0,
   7, 0, 0, 0, 0, 0, 0, 0,
   9, 0, 0, 0, 0, 0, 0, 0,
   0, 0, 0, 0, 0, 0, 0, 0,
   0, 0, 0, 0, 0, 0, 0, 0,
   0, 1, 0, 0, 0, 0, 0, 0,
   0, 0, 0, 0, 0, 0, 0, 0,
   2, 0, 60, 0, 97, 0]

/-! ### Theorems -/

/-- Claim C1: the claim says a record with `record_length == 0` stops the
iteration over the buffer in both walks and that the walk always
terminates.  `build_index`'s walk has no `record_length == 0` check, so on
a buffer whose record at offset 8 has `RecordLength = 0` (here 16 zero
bytes with `bytes_returned = 16`) the offset never advances: for every
fuel bound the walk is still running.  This evaluates the code at the
failing input and exhibits the divergence. -/
theorem C1_build_walk_zero_length_record_diverges :
    ∀ (fuel : Nat) (entries : EntryStore),
      buildWalkFuel (List.replicate 16 0) 16 fuel 8 entries = none := by
  intro fuel
  induction fuel with
  | zero => intro entries; rfl
  | succ n ih =>
    intro entries
    have hlen : recLen (List.replicate 16 0) 8 = 0 := by decide
    have hnm : recNameLen (List.replicate 16 0) 8 = 0 := by decide
    have hproc : processEnumRecord (List.replicate 16 0) 8 entries = entries := by
      rw [processEnumRecord, hnm]
      simp
    simp only [buildWalkFuel, hlen]
    rw [if_pos (by omega), if_neg (by omega), hproc]
    exact ih entries

/-- Claim C3: on a successful journal read with `bytes_returned > 8`, the
anchor's `start_usn` after the iteration equals the signed 64-bit value
held in the buffer's first 8 bytes, whatever the rest of the buffer holds
(in particular even if no record in it decodes). -/
theorem C3_anchor_advances_to_buffer_head (drive : List Nat) (st : MState)
    (buf : List Nat) (br : Nat) (h : 8 < br) :
    (monitorStep drive st true buf br).1.startUsn = toI64 (readU64 buf 0) := by
  rw [monitorStep, if_pos ⟨rfl, h⟩]

/-- Witness for C3 at a concrete buffer of nine bytes. -/
theorem C3_anchor_advances_to_buffer_head_witness :
    (monitorStep [67, 58] ⟨0, [], []⟩ true [1, 0, 0, 0, 0, 0, 0, 0, 0] 9).1.startUsn
      = toI64 (readU64 [1, 0, 0, 0, 0, 0, 0, 0, 0] 0) :=
  C3_anchor_advances_to_buffer_head [67, 58] ⟨0, [], []⟩ [1, 0, 0, 0, 0, 0, 0, 0, 0] 9
    (by decide)

/-- Claim C6 counterexample: the claim says `monitor` never returns for
any input or error sequence, a failed volume-handle open included.  In
the source the whole loop sits inside `if let Ok(handle) = ...`, so when
the open fails `monitor` returns immediately. -/
theorem C6_counterexample_open_failure_returns :
    monitorRun [67, 58] false ⟨0, [], []⟩ [] = .returned := rfl

/-- Claim C6 as amended: once the volume handle is open, `monitor` never
returns after any finite sequence of read outcomes, and every failed read
or read with `bytes_returned ≤ 8` is a sleep-and-retry that leaves the
tailer state unchanged; only a failed handle open makes `monitor` return. -/
theorem C6_amended_loop_never_returns (drive : List Nat) (st0 : MState)
    (inputs : List (Bool × List Nat × Nat)) :
    monitorRun drive true st0 inputs ≠ .returned
    ∧ ∀ (st : MState) (ok : Bool) (buf : List Nat) (br : Nat),
        ¬(ok = true ∧ 8 < br) → monitorStep drive st ok buf br = (st, []) := by
  constructor
  · rw [monitorRun, if_pos rfl]
    exact fun h => nomatch h
  · intro st ok buf br hn
    rw [monitorStep, if_neg hn]

/-- Witness for the amended C6: a concrete failed read is a state-preserving
no-op, and the loop is still running on the empty trace. -/
theorem C6_amended_loop_never_returns_witness :
    monitorStep [67, 58] ⟨0, [], []⟩ false [] 0 = (⟨0, [], []⟩, [])
    ∧ monitorRun [67, 58] true ⟨0, [], []⟩ [] ≠ .returned :=
  ⟨(C6_amended_loop_never_returns [67, 58] ⟨0, [], []⟩ []).2 ⟨0, [], []⟩ false [] 0
      (by decide),
    (C6_amended_loop_never_returns [67, 58] ⟨0, [], []⟩ []).1⟩

/-- Helper for C7: against a device that keeps answering with a valid
8-byte buffer whose leading cursor FRN is 0 — the very value the request
started from, i.e. a cursor that never advances — `build_index`'s loop is
still running after any number of responses, with the state unchanged. -/
theorem buildLoop_stall_running (usn : Int) (jid : Nat) :
    ∀ n : Nat,
      buildLoop usn jid 0 (List.replicate n stallResp) ⟨[], []⟩ = (.running, ⟨[], []⟩) := by
  intro n
  induction n with
  | zero => rfl
  | succ m ih =>
    have hwalk : buildWalkFuel (List.replicate 8 0) 8 8 8 [] = some [] := by decide
    have hnf : readU64 (List.replicate 8 0) 0 = 0 := by decide
    rw [List.replicate_succ]
    simp only [buildLoop, stallResp, hwalk, hnf]
    rw [if_neg (by decide), if_neg (by decide)]
    exact ih

/-- Claim C7 counterexample: the claim says that when the cursor FRN in
the first 8 bytes of an enum-mft buffer does not advance, `build_index`
bails out with an `EnumStalled` error.  The source has no stall check at
all: after five consecutive non-advancing buffers the run has produced no
error and is still looping. -/
theorem C7_counterexample_no_stall_bailout :
    buildIndexFull ⟨[], []⟩ true (some (0, 0)) (List.replicate 5 stallResp)
      = (.running, ⟨[], []⟩) := by decide

/-- Claim C7 as amended: `build_index` has no stall detection; when the
enum-mft IOCTL keeps returning buffers whose cursor FRN does not advance,
it neither errors nor terminates — after any number of such responses it
is still looping with the state unchanged. -/
theorem C7_amended_stall_loops_forever (n : Nat) :
    buildIndexFull ⟨[], []⟩ true (some (0, 0)) (List.replicate n stallResp)
      = (.running, ⟨[], []⟩) := by
  rw [buildIndexFull, if_pos rfl]
  exact buildLoop_stall_running 0 0 n

/-- Claim C8: after `monitor` processes a create/rename-new record (one
whose reason mask misses the delete branch and hits the create branch)
with a non-empty name, the search index holds exactly one pair whose FRN
is the record's FRN: the prior pairs with that FRN are pruned by `retain`
before the single new pair is pushed. -/
theorem C8_create_leaves_unique_search_pair (drive buf : List Nat) (off : Nat)
    (ws : WalkState)
    (h1 : 0 < recNameLen buf off)
    (h2 : recReason buf off &&& (USN_REASON_FILE_DELETE ||| USN_REASON_RENAME_OLD_NAME) = 0)
    (h3 : recReason buf off &&& (USN_REASON_FILE_CREATE ||| USN_REASON_RENAME_NEW_NAME) ≠ 0) :
    ((processMonitorRecord drive buf off ws).search.countP
        fun p => p.1 == recFRN buf off) = 1 := by
  rw [processMonitorRecord]
  rw [if_pos h1, if_neg (by simp [h2]), if_pos h3]
  simp only [List.countP_append]
  have h0 : ((ws.search.filter fun p => p.1 != recFRN buf off).countP
      fun p => p.1 == recFRN buf off) = 0 := by
    rw [List.countP_eq_zero]
    intro a ha
    have := (List.mem_filter.mp ha).2
    simpa using this
  rw [h0]
  simp [List.countP_cons]

/-- Witness for C8 at a concrete create record over an empty state. -/
theorem C8_create_leaves_unique_search_pair_witness :
    ((processMonitorRecord [67, 58] bufCre 0 ⟨[], [], []⟩).search.countP
        fun p => p.1 == recFRN bufCre 0) = 1 :=
  C8_create_leaves_unique_search_pair [67, 58] bufCre 0 ⟨[], [], []⟩
    (by decide) (by decide) (by decide)

/-- Claim C10: the tailer's store mutations do not depend on event
emission.  For a record taking the delete branch, the entry is removed
from the store and the pair pruned from the search index unconditionally,
and when the FRN is not found — or its old path fails to reconstruct — no
event is appended.  For a record taking the create branch, the entry is
upserted and the search index pruned-and-pushed unconditionally, and when
the parent path fails to reconstruct (against the post-insert store, as
in the source) no event is appended. -/
theorem C10_mutations_independent_of_emission (drive buf : List Nat) (off : Nat)
    (ws : WalkState) :
    (0 < recNameLen buf off →
      recReason buf off &&& (USN_REASON_FILE_DELETE ||| USN_REASON_RENAME_OLD_NAME) ≠ 0 →
        (processMonitorRecord drive buf off ws).entries
            = removeStore (recFRN buf off) ws.entries
        ∧ (processMonitorRecord drive buf off ws).search
            = (ws.search.filter fun p => p.1 != recFRN buf off)
        ∧ (lookupStore (recFRN buf off) ws.entries = none →
            (processMonitorRecord drive buf off ws).changes = ws.changes)
        ∧ (∀ e : FileEntry, lookupStore (recFRN buf off) ws.entries = some e →
            reconstruct_path drive ws.entries e.parent_frn = none →
            (processMonitorRecord drive buf off ws).changes = ws.changes))
    ∧ (0 < recNameLen buf off →
      recReason buf off &&& (USN_REASON_FILE_DELETE ||| USN_REASON_RENAME_OLD_NAME) = 0 →
      recReason buf off &&& (USN_REASON_FILE_CREATE ||| USN_REASON_RENAME_NEW_NAME) ≠ 0 →
        (processMonitorRecord drive buf off ws).entries
            = insertStore (recFRN buf off)
                ⟨recParent buf off, recName buf off,
                  (recAttrs buf off &&& FILE_ATTRIBUTE_DIRECTORY) != 0⟩ ws.entries
        ∧ (processMonitorRecord drive buf off ws).search
            = (ws.search.filter fun p => p.1 != recFRN buf off)
                ++ [(recFRN buf off, recName buf off)]
        ∧ (reconstruct_path drive
              (insertStore (recFRN buf off)
                ⟨recParent buf off, recName buf off,
                  (recAttrs buf off &&& FILE_ATTRIBUTE_DIRECTORY) != 0⟩ ws.entries)
              (recParent buf off) = none →
            (processMonitorRecord drive buf off ws).changes = ws.changes)) := by
  constructor
  · intro h1 hdel
    rw [processMonitorRecord, if_pos h1, if_pos hdel]
    refine ⟨rfl, rfl, ?_, ?_⟩
    · intro hlk
      simp [hlk]
    · intro e hlk hrec
      simp [hlk, hrec]
  · intro h1 hdel0 hcre
    rw [processMonitorRecord, if_pos h1, if_neg (by simp [hdel0]), if_pos hcre]
    refine ⟨rfl, rfl, ?_⟩
    intro hrec
    simp [hrec]

/-- Witness for C10: a concrete delete record over an empty state (FRN
not found: mutation happens, no event), and a concrete create record over
an empty state (parent path un-rooted: upsert happens, no event). -/
theorem C10_mutations_independent_of_emission_witness :
    (processMonitorRecord [67, 58] bufDel 0 ⟨[], [], []⟩).entries
        = removeStore (recFRN bufDel 0) []
    ∧ (processMonitorRecord [67, 58] bufDel 0 ⟨[], [], []⟩).changes = []
    ∧ (processMonitorRecord [67, 58] bufCre 0 ⟨[], [], []⟩).entries
        = insertStore (recFRN bufCre 0)
            ⟨recParent bufCre 0, recName bufCre 0,
              (recAttrs bufCre 0 &&& FILE_ATTRIBUTE_DIRECTORY) != 0⟩ []
    ∧ (processMonitorRecord [67, 58] bufCre 0 ⟨[], [], []⟩).changes = [] :=
  ⟨((C10_mutations_independent_of_emission [67, 58] bufDel 0 ⟨[], [], []⟩).1
      (by decide) (by decide)).1,
   ((C10_mutations_independent_of_emission [67, 58] bufDel 0 ⟨[], [], []⟩).1
      (by decide) (by decide)).2.2.1 rfl,
   ((C10_mutations_independent_of_emission [67, 58] bufCre 0 ⟨[], [], []⟩).2
      (by decide) (by decide) (by decide)).1,
   ((C10_mutations_independent_of_emission [67, 58] bufCre 0 ⟨[], [], []⟩).2
      (by decide) (by decide) (by decide)).2.2 (by decide)⟩

/-- Helper for C9: whenever the enumeration loop ends in an error, the
search index of the final state is the one it started with (the rebuild
only happens on the success exits). -/
theorem buildLoop_err_search (usn : Int) (jid : Nat) :
    ∀ (rs : List EnumResp) (sf : Nat) (st : BState),
      (buildLoop usn jid sf rs st).1 = .err →
      (buildLoop usn jid sf rs st).2.search = st.search := by
  intro rs
  induction rs with
  | nil =>
    intro sf st h
    exact absurd h (by simp [buildLoop])
  | cons r t ih =>
    intro sf st h
    cases r with
    | eof =>
      rw [buildLoop, finishBuild] at h
      exact absurd h (by simp)
    | fail => rfl
    | ok buf br =>
      rw [buildLoop] at h ⊢
      by_cases h0 : br = 0
      · rw [if_pos h0] at h
        rw [finishBuild] at h
        exact absurd h (by simp)
      · rw [if_neg h0] at h ⊢
        by_cases h8 : br < 8
        · rw [if_pos h8] at h
          rw [finishBuild] at h
          exact absurd h (by simp)
        · rw [if_neg h8] at h ⊢
          cases hw : buildWalkFuel buf br br 8 st.entries with
          | none => rw [hw] at h
          | some entries2 =>
            rw [hw] at h
            exact ih (readU64 buf 0) ⟨entries2, st.search⟩ h

/-- Claim C9: when `build_index` fails after its initial clear — the
query-journal IOCTL fails, or a later enum-mft IOCTL fails with an error
other than EOF — it returns the error leaving the search index exactly as
it was before the call and the entry store holding only what was inserted
so far (empty in the query-journal case, the accumulated state in the
enum case), so on error the search index's FRN multiset can differ from
the entry store's key set (last conjunct: a concrete such state). -/
theorem C9_error_paths_leave_search_index (st0 : BState) (q : Option (Int × Nat))
    (rs : List EnumResp) :
    ((buildIndexFull st0 true q rs).1 = .err →
        (buildIndexFull st0 true q rs).2.search = st0.search)
    ∧ (q = none → buildIndexFull st0 true q rs = (.err, ⟨[], st0.search⟩))
    ∧ (∀ (usn : Int) (jid sf : Nat) (rest : List EnumResp) (st : BState),
        buildLoop usn jid sf (.fail :: rest) st = (.err, st))
    ∧ (buildIndexFull ⟨[(3, ⟨0, [97], false⟩)], [(3, [97])]⟩ true none []).2.entries.map
          Prod.fst
        ≠ (buildIndexFull ⟨[(3, ⟨0, [97], false⟩)], [(3, [97])]⟩ true none []).2.search.map
          Prod.fst := by
  refine ⟨?_, ?_, ?_, by decide⟩
  · intro h
    rw [buildIndexFull, if_pos rfl] at h ⊢
    cases q with
    | none => rfl
    | some p =>
      obtain ⟨usn, jid⟩ := p
      exact buildLoop_err_search usn jid rs 0 ⟨[], st0.search⟩ h
  · intro hq
    subst hq
    rw [buildIndexFull, if_pos rfl]
  · intro usn jid sf rest st
    rfl

/-- Witness for C9: a failed query-journal IOCTL over a concrete state
with one search-index pair leaves that pair in place and the store empty. -/
theorem C9_error_paths_leave_search_index_witness :
    buildIndexFull ⟨[], [(1, [98])]⟩ true none [] = (.err, ⟨[], [(1, [98])]⟩) :=
  (C9_error_paths_leave_search_index ⟨[], [(1, [98])]⟩ none []).2.1 rfl

/-! #### Lemmas about the store operations (for the snapshot round trip) -/

theorem lookup_filter_ne (k k1 : Nat) (h : k ≠ k1) :
    ∀ s : EntryStore, lookupStore k (s.filter fun p => p.1 != k1) = lookupStore k s := by
  intro s
  induction s with
  | nil => rfl
  | cons p t ih =>
    obtain ⟨a, b⟩ := p
    by_cases ha : a = k1
    · subst ha
      have hne : ¬(a = k) := fun hh => h hh.symm
      simp [List.filter_cons, lookupStore, hne, ih]
    · have hpred : ((a, b).1 != k1) = true := by simpa using ha
      simp [List.filter_cons, hpred, lookupStore, ih]

theorem lookup_insert_self (k : Nat) (v : FileEntry) (s : EntryStore) :
    lookupStore k (insertStore k v s) = some v := by
  simp [insertStore, lookupStore]

theorem lookup_insert_ne (k k1 : Nat) (v : FileEntry) (s : EntryStore) (h : k ≠ k1) :
    lookupStore k (insertStore k1 v s) = lookupStore k s := by
  rw [insertStore, lookupStore, if_neg (fun hh => h hh.symm)]
  exact lookup_filter_ne k k1 h s

theorem lookup_eq_none_of_not_mem_keys (k : Nat) :
    ∀ l : EntryStore, k ∉ l.map Prod.fst → lookupStore k l = none := by
  intro l
  induction l with
  | nil => intro _; rfl
  | cons p t ih =>
    intro hk
    obtain ⟨a, b⟩ := p
    simp only [List.map_cons, List.mem_cons] at hk
    push_neg at hk
    rw [lookupStore, if_neg (fun hh => hk.1 hh.symm)]
    exact ih hk.2

theorem lookup_foldl_insert (l : List (Nat × FileEntry)) :
    ∀ acc : EntryStore, (l.map Prod.fst).Nodup → ∀ k : Nat,
      lookupStore k (l.foldl (fun a kv => insertStore kv.1 kv.2 a) acc)
        = (lookupStore k l).or (lookupStore k acc) := by
  induction l with
  | nil =>
    intro acc _ k
    simp [lookupStore]
  | cons p t ih =>
    intro acc hnd k
    obtain ⟨k1, v1⟩ := p
    simp only [List.map_cons, List.nodup_cons] at hnd
    simp only [List.foldl_cons]
    rw [ih (insertStore k1 v1 acc) hnd.2 k]
    by_cases hk : k = k1
    · subst hk
      rw [lookup_eq_none_of_not_mem_keys k t hnd.1, lookup_insert_self]
      simp [lookupStore]
    · rw [lookup_insert_ne k k1 v1 acc hk]
      have : ¬(k1 = k) := fun hh => hk hh.symm
      simp [lookupStore, this]

/-- Claim C5: saving the state with `save_to_disk` and loading the result
with `load_from_disk` reproduces the state exactly: the loaded entry
store agrees with the saved one at every key, and the returned
`next_usn` and `journal_id` are the saved ones.  The hypothesis records
that a `DashMap` iteration yields each key once. -/
theorem C5_snapshot_round_trip (store : EntryStore) (usn : Int) (jid : Nat)
    (hnd : (store.map Prod.fst).Nodup) :
    (∀ k, lookupStore k (load_from_disk (save_to_disk store usn jid)).1 = lookupStore k store)
    ∧ (load_from_disk (save_to_disk store usn jid)).2.2.1 = usn
    ∧ (load_from_disk (save_to_disk store usn jid)).2.2.2 = jid := by
  refine ⟨?_, rfl, rfl⟩
  intro k
  show lookupStore k (store.foldl (fun acc kv => insertStore kv.1 kv.2 acc) []) = _
  rw [lookup_foldl_insert store [] hnd k]
  cases lookupStore k store <;> simp [lookupStore]

/-- Witness for C5 at a concrete two-entry store. -/
theorem C5_snapshot_round_trip_witness :
    lookupStore 1
        (load_from_disk
          (save_to_disk [(1, ⟨0, [97], false⟩), (2, ⟨1, [98], true⟩)] 5 7)).1
      = lookupStore 1 [(1, ⟨0, [97], false⟩), (2, ⟨1, [98], true⟩)]
    ∧ (load_from_disk
          (save_to_disk [(1, ⟨0, [97], false⟩), (2, ⟨1, [98], true⟩)] 5 7)).2.2.1 = 5
    ∧ (load_from_disk
          (save_to_disk [(1, ⟨0, [97], false⟩), (2, ⟨1, [98], true⟩)] 5 7)).2.2.2 = 7 :=
  ⟨(C5_snapshot_round_trip [(1, ⟨0, [97], false⟩), (2, ⟨1, [98], true⟩)] 5 7
      (by decide)).1 1,
   (C5_snapshot_round_trip [(1, ⟨0, [97], false⟩), (2, ⟨1, [98], true⟩)] 5 7
      (by decide)).2.1,
   (C5_snapshot_round_trip [(1, ⟨0, [97], false⟩), (2, ⟨1, [98], true⟩)] 5 7
      (by decide)).2.2⟩

/-- Every string contains the empty string. -/
theorem containsSub_empty_needle (hay : List Nat) : containsSub hay [] = true := by
  cases hay <;> simp [containsSub, isPrefOf, List.isEmpty]

/-- Claim C4: `search` returns at most 500 paths; every returned path
comes from a search-index pair whose lowercased name contains the
lowercased query, through a successful path reconstruction; on an empty
index the result is the empty list; and the empty query's filter keeps
every pair.  (`search` is a total function, so it never fails.) -/
theorem C4_search_bound_and_provenance (drive : List Nat) (store : EntryStore)
    (idx : SearchIdx) (query : List Nat) :
    (search drive store idx query).length ≤ 500
    ∧ (∀ p ∈ search drive store idx query,
        ∃ frn name, (frn, name) ∈ idx
          ∧ containsSub (toLowerStr name) (toLowerStr query) = true
          ∧ reconstruct_path drive store frn = some p)
    ∧ search drive store [] query = []
    ∧ (idx.filter fun p => containsSub (toLowerStr p.2) (toLowerStr [])) = idx := by
  refine ⟨?_, ?_, rfl, ?_⟩
  · simp only [search]
    exact List.length_take_le 500 _
  · intro p hp
    simp only [search] at hp
    have hp2 := List.take_subset _ _ hp
    obtain ⟨a, ha, hfa⟩ := List.mem_filterMap.mp hp2
    obtain ⟨hmem, hpred⟩ := List.mem_filter.mp ha
    exact ⟨a.1, a.2, hmem, hpred, hfa⟩
  · rw [List.filter_eq_self]
    intro a _
    exact containsSub_empty_needle (toLowerStr a.2)

/-- Witness for C4: searching a one-pair index over a store rooted at the
NTFS sentinel returns that pair's path, within the bound. -/
theorem C4_search_bound_and_provenance_witness :
    search [67, 58] [] [] [97] = [] :=
  (C4_search_bound_and_provenance [67, 58] [] [] [97]).2.2.1

/-! #### Lemmas about the parent chain (for C2) -/

theorem chainAt_succ_top (store : EntryStore) (f : Nat) :
    ∀ k : Nat,
      chainAt store f (k + 1)
        = match chainStep store f with
          | some p => chainAt store p k
          | none => none := by
  intro k
  induction k with
  | zero =>
    show (match chainAt store f 0 with
          | some c => chainStep store c
          | none => none) = _
    cases h : chainStep store f <;> simp [chainAt, h]
  | succ m ih =>
    show (match chainAt store f (m + 1) with
          | some c => chainStep store c
          | none => none) = _
    rw [ih]
    cases chainStep store f with
    | none => rfl
    | some p => rfl

theorem brokenAtB_zero (store : EntryStore) (f : Nat) :
    brokenAtB store f 0 = ((lookupStore f store).isNone && (Nat.land f MASK48 != 5)) := rfl

theorem brokenAtB_succ (store : EntryStore) (f k : Nat) :
    brokenAtB store f (k + 1)
      = match chainStep store f with
        | some p => brokenAtB store p k
        | none => false := by
  rw [brokenAtB, chainAt_succ_top store f k]
  cases chainStep store f with
  | none => rfl
  | some p => rfl

theorem chainStep_of_lookup_none (store : EntryStore) (f : Nat)
    (hl : lookupStore f store = none) : chainStep store f = none := by
  simp [chainStep, hl]

theorem chainStep_of_stop (store : EntryStore) (f : Nat) (e : FileEntry)
    (hl : lookupStore f store = some e)
    (hstop : e.parent_frn = f ∨ e.parent_frn = 0 ∨ Nat.land e.parent_frn MASK48 = 5) :
    chainStep store f = none := by
  simp only [chainStep, hl]
  rcases hstop with h | h | h
  · rw [if_pos (Or.inl h)]
  · rw [if_pos (Or.inr h)]
  · by_cases h12 : e.parent_frn = f ∨ e.parent_frn = 0
    · rw [if_pos h12]
    · rw [if_neg h12, if_pos h]

theorem chainStep_of_go (store : EntryStore) (f : Nat) (e : FileEntry)
    (hl : lookupStore f store = some e)
    (h12 : ¬(e.parent_frn = f ∨ e.parent_frn = 0))
    (h5 : ¬Nat.land e.parent_frn MASK48 = 5) :
    chainStep store f = some e.parent_frn := by
  simp only [chainStep, hl]
  rw [if_neg h12, if_neg h5]

theorem not_broken_of_step_none (store : EntryStore) (f : Nat)
    (h0 : brokenAtB store f 0 = false) (hcs : chainStep store f = none) :
    ∀ k, brokenAtB store f k = false := by
  intro k
  cases k with
  | zero => exact h0
  | succ j => rw [brokenAtB_succ, hcs]

/-- The bounded walk of `reconstruct_path` yields `none` exactly when the
chain from the starting FRN is broken — reaches an FRN absent from the
store whose low 48 bits are not 5 — within the fuel bound. -/
theorem reconstructAux_none_iff (store : EntryStore) :
    ∀ (fuel f : Nat) (parts : List (List Nat)),
      reconstructAux store fuel f parts = none
        ↔ ∃ k, k < fuel ∧ brokenAtB store f k = true := by
  intro fuel
  induction fuel with
  | zero =>
    intro f parts
    simp [reconstructAux]
  | succ n ih =>
    intro f parts
    cases hl : lookupStore f store with
    | none =>
      have hcs := chainStep_of_lookup_none store f hl
      by_cases h5 : Nat.land f MASK48 = 5
      · have h0 : brokenAtB store f 0 = false := by
          rw [brokenAtB_zero, hl, h5]
          simp
        constructor
        · intro h
          simp [reconstructAux, hl, h5] at h
        · rintro ⟨k, _, hb⟩
          rw [not_broken_of_step_none store f h0 hcs k] at hb
          exact absurd hb (by simp)
      · constructor
        · intro _
          refine ⟨0, by omega, ?_⟩
          rw [brokenAtB_zero, hl]
          simp [h5]
        · intro _
          simp [reconstructAux, hl, h5]
    | some e =>
      by_cases h12 : e.parent_frn = f ∨ e.parent_frn = 0
      · have hcs := chainStep_of_stop store f e hl
          (h12.elim (fun h => Or.inl h) (fun h => Or.inr (Or.inl h)))
        have h0 : brokenAtB store f 0 = false := by
          rw [brokenAtB_zero, hl]
          simp
        constructor
        · intro h
          simp [reconstructAux, hl, h12] at h
        · rintro ⟨k, _, hb⟩
          rw [not_broken_of_step_none store f h0 hcs k] at hb
          exact absurd hb (by simp)
      · by_cases h5 : Nat.land e.parent_frn MASK48 = 5
        · have hcs := chainStep_of_stop store f e hl (Or.inr (Or.inr h5))
          have h0 : brokenAtB store f 0 = false := by
            rw [brokenAtB_zero, hl]
            simp
          constructor
          · intro h
            simp [reconstructAux, hl, h12, h5] at h
          · rintro ⟨k, _, hb⟩
            rw [not_broken_of_step_none store f h0 hcs k] at hb
            exact absurd hb (by simp)
        · have hcs := chainStep_of_go store f e hl h12 h5
          have hred : reconstructAux store (n + 1) f parts
              = reconstructAux store n e.parent_frn (parts ++ [e.name]) := by
            simp [reconstructAux, hl, h12, h5]
          rw [hred, ih e.parent_frn (parts ++ [e.name])]
          constructor
          · rintro ⟨k, hk, hb⟩
            refine ⟨k + 1, by omega, ?_⟩
            rw [brokenAtB_succ, hcs]
            exact hb
          · rintro ⟨k, hk, hb⟩
            cases k with
            | zero =>
              rw [brokenAtB_zero, hl] at hb
              simp at hb
            | succ j =>
              rw [brokenAtB_succ, hcs] at hb
              exact ⟨j, by omega, hb⟩

/-- The bounded walk adds at most `fuel` components to the accumulator. -/
theorem reconstructAux_some_length (store : EntryStore) :
    ∀ (fuel f : Nat) (parts ps : List (List Nat)),
      reconstructAux store fuel f parts = some ps → ps.length ≤ parts.length + fuel := by
  intro fuel
  induction fuel with
  | zero =>
    intro f parts ps h
    simp only [reconstructAux, Option.some.injEq] at h
    subst h
    omega
  | succ n ih =>
    intro f parts ps h
    cases hl : lookupStore f store with
    | none =>
      simp only [reconstructAux, hl] at h
      by_cases h5 : Nat.land f MASK48 = 5
      · rw [if_pos h5] at h
        obtain rfl := Option.some.inj h
        omega
      · rw [if_neg h5] at h
        exact absurd h (by simp)
    | some e =>
      simp only [reconstructAux, hl] at h
      by_cases h12 : e.parent_frn = f ∨ e.parent_frn = 0
      · rw [if_pos h12] at h
        obtain rfl := Option.some.inj h
        simp [List.length_append]
      · rw [if_neg h12] at h
        by_cases h5 : Nat.land e.parent_frn MASK48 = 5
        · rw [if_pos h5] at h
          obtain rfl := Option.some.inj h
          simp [List.length_append]
        · rw [if_neg h5] at h
          have := ih e.parent_frn (parts ++ [e.name]) ps h
          simp [List.length_append] at this
          omega

/-- Claim C2: `reconstruct_path` (a total function of the embedded store,
so it terminates for every FRN and store state) returns `none` exactly
when the upward chain — which stops on `parent == self`, `parent == 0`,
or `parent & MASK48 == 5`, and runs at most 50 levels — reaches an FRN
absent from the store whose own low 48 bits are not 5; every `some`
result is a path rooted at the drive letter whose component count is
bounded by the 50-level cap. -/
theorem C2_reconstruct_path_characterised (store : EntryStore) (drive : List Nat)
    (f : Nat) :
    (reconstruct_path drive store f = none ↔ ∃ k, k < 50 ∧ brokenAtB store f k = true)
    ∧ ∀ p, reconstruct_path drive store f = some p →
        p.head? = some drive ∧ p.length ≤ 52 := by
  constructor
  · rw [reconstruct_path, Option.map_eq_none']
    exact reconstructAux_none_iff store 50 f []
  · intro p hp
    rw [reconstruct_path] at hp
    obtain ⟨parts, hparts, hmap⟩ := Option.map_eq_some'.mp hp
    have hlen := reconstructAux_some_length store 50 f [] parts hparts
    subst hmap
    constructor
    · by_cases hd : drive.getLast? = some 92 <;> simp [hd]
    · by_cases hd : drive.getLast? = some 92 <;>
        simp only [hd, if_true, if_false, List.length_append, List.length_reverse] <;>
        simp at hlen ⊢ <;> omega

/-- Witness for C2: a store whose single entry points at an absent parent
with low 48 bits 99 yields `none`; a store whose single entry's parent is
the NTFS root sentinel 5 yields a drive-rooted path within the bound. -/
theorem C2_reconstruct_path_characterised_witness :
    reconstruct_path [67, 58] [(10, ⟨99, [97], false⟩)] 10 = none
    ∧ ([[67, 58], [92], [97]] : List (List Nat)).head? = some [67, 58]
    ∧ ([[67, 58], [92], [97]] : List (List Nat)).length ≤ 52 :=
  ⟨(C2_reconstruct_path_characterised [(10, ⟨99, [97], false⟩)] [67, 58] 10).1.mpr
      ⟨1, by omega, by decide⟩,
   ((C2_reconstruct_path_characterised [(10, ⟨5, [97], false⟩)] [67, 58] 10).2
      [[67, 58], [92], [97]] (by decide)).1,
   ((C2_reconstruct_path_characterised [(10, ⟨5, [97], false⟩)] [67, 58] 10).2
      [[67, 58], [92], [97]] (by decide)).2⟩

end Mft
